import Mathlib

/-!
Verification of the transcript chunking, incremental indexing and
ranked-retrieval engine of the youtube-topic-seeker repository
(`src/phase3_rag.py`, class `TopicSearchRAG`, with configuration defaults
from `src/config.py`).

Python strings are modelled as lists of Unicode code points (`PyStr`),
Python floats as rationals, and the external collaborators (the Chroma
similarity store, the OpenAI embedding endpoint and the chat model) as
explicit deterministic oracles passed in as arguments.  Wall-clock fields
(`built_at`) and logging are omitted from the model.
-/

/-- Python strings are sequences of code points. -/
abbrev PyStr := List Char

/-- Code-point list of a Lean string literal (for writing concrete inputs). -/
def pystr (s : String) : PyStr := s.data

/-- The whitespace class of Python's `str.strip` / `str.split` / `\s` in
Unicode mode: ASCII whitespace plus the Unicode space characters. -/
def pyIsSpace (c : Char) : Bool :=
  c = ' ' || c = '\t' || c = '\n' || c = '\x0b' || c = '\x0c' || c = '\r' ||
  c.val = 0x85 || c.val = 0xa0 || c.val = 0x1680 ||
  (0x2000 ≤ c.val && c.val ≤ 0x200a) ||
  c.val = 0x2028 || c.val = 0x2029 || c.val = 0x202f || c.val = 0x205f ||
  c.val = 0x3000

/-- Python `str.strip()`: drop whitespace from both ends. -/
def pyStrip (s : PyStr) : PyStr :=
  ((s.dropWhile pyIsSpace).reverse.dropWhile pyIsSpace).reverse

/-- Python `str.lower()`, restricted to ASCII letters (the only cased
characters the sources and the concrete inputs of this development use). -/
def pyLower (c : Char) : Char :=
  if 'A' ≤ c ∧ c ≤ 'Z' then Char.ofNat (c.toNat + 32) else c

/-- Worker for `pySplitWs`: accumulate the current word (reversed), flush
it at each whitespace that follows a word. -/
def pySplitWsAux : PyStr → PyStr → List PyStr
  | [], cur => if cur = [] then [] else [cur.reverse]
  | c :: cs, cur =>
    if pyIsSpace c then
      if cur = [] then pySplitWsAux cs []
      else cur.reverse :: pySplitWsAux cs []
    else pySplitWsAux cs (c :: cur)

/-- Python `str.split()` with no argument: split on whitespace runs,
discarding empty pieces. -/
def pySplitWs (s : PyStr) : List PyStr := pySplitWsAux s []

/-- Python `int()` on a non-negative or negative rational: truncation
toward zero. -/
def pyInt (q : ℚ) : ℤ := q.num.tdiv q.den

/-- Python's slice `s[-k:]` for `k > 0`: the last `min k (length s)`
characters. -/
def pyTakeRight (s : PyStr) (k : Nat) : PyStr := s.drop (s.length - k)

/-- The floor of a rational as an integer division (kernel-computable;
equal to `⌊q⌋` by `Rat.floor_def`). -/
def ratFloor (q : ℚ) : ℤ := q.num / q.den

/-- Python's built-in `round(x, 3)` on an exact rational: round to the
nearest multiple of `1/1000`, ties to even. -/
def pyRound3 (q : ℚ) : ℚ :=
  let x : ℚ := q * 1000
  let f : ℤ := ratFloor x
  let r : ℚ := x - f
  let n : ℤ :=
    if r < 1/2 then f
    else if r > 1/2 then f + 1
    else if f % 2 = 0 then f else f + 1
  (n : ℚ) / 1000

/-- Insert into a list already sorted in non-increasing key order, before
the first element whose key is `≤` the new element's key.  Folding this
over a list reproduces Python's stable `list.sort(key=…, reverse=True)`. -/
def pyInsertDesc (le : α → α → Bool) (x : α) : List α → List α
  | [] => [x]
  | y :: ys => if le y x then x :: y :: ys else y :: pyInsertDesc le x ys

/-- Python `list.sort(key=…, reverse=True)`: stable descending sort.
`le a b` means "key of `a` ≤ key of `b`". -/
def pySortDesc (le : α → α → Bool) (l : List α) : List α :=
  l.foldr (pyInsertDesc le) []

/-- `TopicSearchRAG._create_timestamp_url` (phase3_rag.py:495-505): append
`t=<int seconds>s` to the video URL, `&`-joined when the URL already has a
query string, `?`-joined otherwise; the URL is returned unchanged when
`start_seconds` is `None` or `≤ 0` (`if not start_seconds or
start_seconds <= 0`). -/
def create_timestamp_url (video_url : PyStr) (start_seconds : Option ℚ) : PyStr :=
  match start_seconds with
  | none => video_url
  | some q =>
    if q ≤ 0 then video_url
    else
      let seconds : ℤ := pyInt q
      if video_url.contains '?' then
        video_url ++ pystr "&t=" ++ (toString seconds).data ++ pystr "s"
      else
        video_url ++ pystr "?t=" ++ (toString seconds).data ++ pystr "s"

/-- A transcript segment as read from an `*_enhanced.json` file
(`transcript.segments[i]`): display time strings, float bounds in
seconds, and the text.  The model assumes the keys are present, which is
what the upstream phases produce. -/
structure Segment where
  start_time : PyStr
  end_time : PyStr
  start_seconds : ℚ
  end_seconds : ℚ
  text : PyStr
deriving DecidableEq, Repr

/-- The per-video content of an `*_enhanced.json` file, restricted to the
fields `_process_video_for_vectorstore` and the build reads.  `video_id`
is `Option` because `video_data.get('video_id')` can be `None`. -/
structure VideoData where
  video_id : Option PyStr
  title : PyStr
  uploader : PyStr
  url : PyStr
  segments : List Segment
deriving DecidableEq, Repr

/-- A langchain `Document` produced by `_process_video_for_vectorstore`:
`page_content` plus the metadata dict of phase3_rag.py:435-450.
`start_time`/`start_seconds` are `Option` because the final-chunk branch
stores the current-start variables, which are `None`-able in the source.
Instead of the source's `segment_count` (a length), the model keeps the
chunk's constituent segment list itself; see `Doc.segment_count`. -/
structure Doc where
  video_id : Option PyStr
  title : PyStr
  uploader : PyStr
  url : PyStr
  page_content : PyStr
  timestamp_url : PyStr
  start_time : Option PyStr
  end_time : PyStr
  start_seconds : Option ℚ
  end_seconds : ℚ
  constituents : List Segment
deriving DecidableEq, Repr

/-- The `segment_count` metadata entry: `len(chunk_segments)`. -/
def Doc.segment_count (d : Doc) : Nat := d.constituents.length

/-- Build the `Document` of phase3_rag.py:435-450 / 474-489. -/
def mkChunkDoc (v : VideoData) (buffer : PyStr) (curT : Option PyStr)
    (curS : Option ℚ) (endT : PyStr) (endS : ℚ) (segs : List Segment) : Doc :=
  { video_id := v.video_id
    title := v.title
    uploader := v.uploader
    url := v.url
    page_content := buffer
    timestamp_url := create_timestamp_url v.url curS
    start_time := curT
    end_time := endT
    start_seconds := curS
    end_seconds := endS
    constituents := segs }

/-- The loop state of the chunking loop of
`_process_video_for_vectorstore` (phase3_rag.py:398-401): the running
buffer `current_chunk`, the provisional chunk start
(`current_start_time`, `current_start_seconds`; `none` encodes the
`current_start_time is None` sentinel), the accumulated
`chunk_segments`, and the documents emitted so far. -/
structure ChunkState where
  buffer : PyStr
  cur : Option (PyStr × ℚ)
  segs : List Segment
  docs : List Doc
deriving DecidableEq, Repr

/-- One iteration of the loop body of phase3_rag.py:403-467 for a segment
whose stripped text is non-empty. -/
def chunk_step (chunkSize chunkOverlap : ℤ) (v : VideoData) (st : ChunkState)
    (seg : Segment) (nextExists : Bool) : ChunkState :=
  let txt := pyStrip seg.text
  let start3 :=
    match st.cur with
    | none => (seg.start_time, seg.start_seconds, ([] : List Segment))
    | some (t, s) => (t, s, st.segs)
  let curT := start3.1
  let curS := start3.2.1
  let segs0 := start3.2.2
  let buffer1 := if st.buffer = [] then txt else st.buffer ++ [' '] ++ txt
  let segs1 := segs0 ++ [seg]
  let len : ℤ := buffer1.length
  if len ≥ chunkSize || !nextExists || (nextExists && len ≥ chunkSize - chunkOverlap) then
    let doc := mkChunkDoc v buffer1 (some curT) (some curS) seg.end_time seg.end_seconds segs1
    let docs1 := st.docs ++ [doc]
    if nextExists && chunkOverlap > 0 then
      let overlapText := pyTakeRight buffer1 chunkOverlap.toNat
      let tl := segs1.drop (segs1.length - 3)
      let anchor := tl.headD seg
      { buffer := overlapText
        cur := some (anchor.start_time, anchor.start_seconds)
        segs := tl
        docs := docs1 }
    else
      { buffer := [], cur := none, segs := [], docs := docs1 }
  else
    { buffer := buffer1, cur := some (curT, curS), segs := segs1, docs := st.docs }

/-- The `for i, segment in enumerate(segments)` loop of
phase3_rag.py:403-467; empty-text segments are skipped
(`if not segment_text: continue`), and `nextExists` is
`i + 1 < len(segments)` over the raw segment list. -/
def chunk_loop (chunkSize chunkOverlap : ℤ) (v : VideoData) (st : ChunkState) :
    List Segment → ChunkState
  | [] => st
  | seg :: rest =>
    if pyStrip seg.text = [] then chunk_loop chunkSize chunkOverlap v st rest
    else chunk_loop chunkSize chunkOverlap v
      (chunk_step chunkSize chunkOverlap v st seg (!rest.isEmpty)) rest

/-- The final-chunk branch of `_process_video_for_vectorstore`
(phase3_rag.py:469-490): `if current_chunk.strip():` close the remaining
buffered text, taking end bounds from the unit's **last raw segment**
(`end_segment = segments[-1]`). -/
def chunk_final (v : VideoData) (st : ChunkState) : List Doc :=
  if pyStrip st.buffer ≠ [] then
    st.docs ++ [mkChunkDoc v st.buffer (st.cur.map Prod.fst) (st.cur.map Prod.snd)
      (v.segments.getLastD ⟨[], [], 0, 0, []⟩).end_time
      (v.segments.getLastD ⟨[], [], 0, 0, []⟩).end_seconds st.segs]
  else st.docs

/-- `TopicSearchRAG._process_video_for_vectorstore` (phase3_rag.py:382-493):
returns the chunk documents of one video and `len(segments)`; a video
without segments yields no documents (line 393). -/
def process_video_for_vectorstore (chunkSize chunkOverlap : ℤ) (v : VideoData) :
    List Doc × Nat :=
  if v.segments = [] then ([], 0)
  else
    (chunk_final v (chunk_loop chunkSize chunkOverlap v ⟨[], none, [], []⟩ v.segments),
      v.segments.length)

/-- Default segment used only as the default of `headD`/`getLastD` at
positions proved unreachable. -/
def dumSeg : Segment := ⟨[], [], 0, 0, []⟩

/-- The chunk start in seconds, defaulting the (provably unreachable)
`None` to `0`. -/
def docStartD (d : Doc) : ℚ := d.start_seconds.getD 0

/-- Comparison of segments by `start_seconds`. -/
def segStartLe (a b : Segment) : Prop := a.start_seconds ≤ b.start_seconds

/-- The chunk start metadata coincides with the first constituent
segment. -/
def startsOk (d : Doc) : Prop :=
  d.constituents ≠ [] ∧
  d.start_seconds = some (d.constituents.headD dumSeg).start_seconds ∧
  d.start_time = some (d.constituents.headD dumSeg).start_time

/-- The chunk end metadata coincides with the last constituent segment. -/
def endsOk (d : Doc) : Prop :=
  d.end_seconds = (d.constituents.getLastD dumSeg).end_seconds ∧
  d.end_time = (d.constituents.getLastD dumSeg).end_time

/-- Relation between the provisional chunk start and the accumulated
`chunk_segments`/`current_chunk`. -/
def curOk (cur : Option (PyStr × ℚ)) (segs : List Segment) (buffer : PyStr) : Prop :=
  match cur with
  | none => segs = [] ∧ buffer = []
  | some (t, s) =>
    segs ≠ [] ∧
    (segs.headD dumSeg).start_seconds = s ∧
    (segs.headD dumSeg).start_time = t

@[simp] theorem curOk_none (segs : List Segment) (buffer : PyStr) :
    curOk none segs buffer ↔ segs = [] ∧ buffer = [] := Iff.rfl

@[simp] theorem curOk_some (t : PyStr) (s : ℚ) (segs : List Segment) (buffer : PyStr) :
    curOk (some (t, s)) segs buffer ↔
      (segs ≠ [] ∧ (segs.headD dumSeg).start_seconds = s ∧
        (segs.headD dumSeg).start_time = t) := Iff.rfl

/-- Structural invariant of the chunking loop: every emitted chunk has its
start bounds from its first constituent and its end bounds from its last
constituent, and the loop state is coherent. -/
def StructInv (st : ChunkState) : Prop :=
  (∀ d ∈ st.docs, startsOk d ∧ endsOk d) ∧ curOk st.cur st.segs st.buffer

/-- Comparison of chunk documents by start time. -/
def docStartLe (a b : Doc) : Prop := docStartD a ≤ docStartD b

instance : DecidableRel segStartLe :=
  fun a b => inferInstanceAs (Decidable (a.start_seconds ≤ b.start_seconds))

instance : DecidableRel docStartLe :=
  fun a b => inferInstanceAs (Decidable (docStartD a ≤ docStartD b))

/-- Ordering invariant of the chunking loop relative to the segments not
yet consumed: emitted chunks are time-ordered, every emitted chunk starts
no later than the provisional start of the open chunk, and everything
still to come starts no earlier. -/
def ordCurOk (cur : Option (PyStr × ℚ)) (segs : List Segment) (buffer : PyStr)
    (docs : List Doc) (rest : List Segment) : Prop :=
  match cur with
  | none => segs = [] ∧ buffer = []
  | some (_, s) =>
    segs ≠ [] ∧
    (segs.headD dumSeg).start_seconds = s ∧
    List.Sorted segStartLe segs ∧
    (∀ d ∈ docs, docStartD d ≤ s) ∧
    (∀ x ∈ segs, ∀ y ∈ rest, x.start_seconds ≤ y.start_seconds) ∧
    (∀ y ∈ rest, s ≤ y.start_seconds)

def OrdInv (st : ChunkState) (rest : List Segment) : Prop :=
  (∀ d ∈ st.docs, d.start_seconds.isSome = true) ∧
  List.Chain' docStartLe st.docs ∧
  (∀ d ∈ st.docs, ∀ y ∈ rest, docStartD d ≤ y.start_seconds) ∧
  ordCurOk st.cur st.segs st.buffer st.docs rest

/-- Default document (only a `headD` default at unreachable positions). -/
def dumDoc : Doc := ⟨none, [], [], [], [], [], none, [], none, 0, []⟩

-- Concrete unit used in witnesses: three short segments, chunk size 8,
-- overlap 3, exercising the close-and-reseed path.
def segW1 : Segment := ⟨pystr "00:00", pystr "00:05", 0, 5, pystr "aaaa"⟩
def segW2 : Segment := ⟨pystr "00:05", pystr "00:09", 5, 9, pystr "bbbb"⟩
def segW3 : Segment := ⟨pystr "00:09", pystr "00:12", 9, 12, pystr "cccc"⟩
def videoW : VideoData :=
  ⟨some (pystr "vidW"), pystr "TitleW", pystr "UpW", pystr "http://w", [segW1, segW2, segW3]⟩

-- Unit whose trailing segment has empty text: the constituents of the
-- final chunk end at 10 s but the chunk's `end_seconds` is 20 s.
def segX1 : Segment := ⟨pystr "00:00", pystr "00:10", 0, 10, pystr "hello world"⟩
def segX2 : Segment := ⟨pystr "00:10", pystr "00:20", 10, 20, pystr " "⟩
def videoX : VideoData :=
  ⟨some (pystr "vidX"), pystr "TitleX", pystr "UpX", pystr "http://x", [segX1, segX2]⟩

/-- Worker for `pyReplace`, structurally recursive on a fuel that always
suffices when initialised with the input's length (every step consumes at
least one character). -/
def pyReplaceAux (pat repl : PyStr) : Nat → PyStr → PyStr
  | _, [] => []
  | 0, s => s
  | fuel + 1, c :: cs =>
    if pat ≠ [] ∧ pat.isPrefixOf (c :: cs) then
      repl ++ pyReplaceAux pat repl fuel ((c :: cs).drop pat.length)
    else c :: pyReplaceAux pat repl fuel cs

/-- Python `str.replace(pat, repl)`: replace non-overlapping occurrences
left to right (never called with an empty pattern in the source). -/
def pyReplace (pat repl s : PyStr) : PyStr := pyReplaceAux pat repl s.length s

/-- `re.sub(r'\s+', ' ', text)`: collapse every whitespace run into a
single space (the flag records whether the previous character was part of
a run). -/
def collapseWs : PyStr → Bool → PyStr
  | [], _ => []
  | c :: cs, prevSpace =>
    if pyIsSpace c then
      if prevSpace then collapseWs cs true else ' ' :: collapseWs cs true
    else c :: collapseWs cs false

/-- The character class kept by the "remaining unprintable characters"
regex of `_fix_encoding_issues` (phase3_rag.py:738):
`[\x20-\x7E　-〿぀-ゟ゠-ヿ一-龯＀-￯]`. -/
def keepChar (c : Char) : Bool :=
  (0x20 ≤ c.val && c.val ≤ 0x7e) || (0x3000 ≤ c.val && c.val ≤ 0x303f) ||
  (0x3040 ≤ c.val && c.val ≤ 0x309f) || (0x30a0 ≤ c.val && c.val ≤ 0x30ff) ||
  (0x4e00 ≤ c.val && c.val ≤ 0x9faf) || (0xff00 ≤ c.val && c.val ≤ 0xffef)

/-- The replacements dict of `_fix_encoding_issues` (phase3_rag.py:720-731).
The source writes its keys as `'\\u2019'` etc., i.e. **literal**
backslash-escape sequences of six characters, not the Unicode characters
themselves; the model preserves that. -/
def encodingReplacements : List (PyStr × PyStr) :=
  [ (pystr "\\u2019", pystr "'"),
    (pystr "\\u201c", pystr "\""),
    (pystr "\\u201d", pystr "\""),
    (pystr "\\u2013", pystr "-"),
    (pystr "\\u2014", pystr "-"),
    (pystr "\\u2026", pystr "..."),
    (pystr "\\uff1a", pystr ":"),
    (pystr "\\uff0c", pystr ","),
    (pystr "\\uff01", pystr "!"),
    (pystr "\\uff1f", pystr "?") ]

/-- `TopicSearchRAG._fix_encoding_issues` (phase3_rag.py:711-743): drop
doubled replacement characters, apply the literal-escape replacement
table, drop characters outside the kept ranges, collapse whitespace runs
and strip. -/
def fix_encoding_issues (text : PyStr) : PyStr :=
  if text = [] then text
  else
    pyStrip (collapseWs
      ((encodingReplacements.foldl (fun acc p => pyReplace p.1 p.2 acc)
        (pyReplace (pystr "��") [] text)).filter keepChar)
      false)

/-- The sentence-splitting delimiters of `_extract_key_sentences`
(phase3_rag.py:750): `[.!?。！？]`. -/
def isSentencePunct (c : Char) : Bool :=
  c = '.' || c = '!' || c = '?' || c = '。' || c = '！' || c = '？'

/-- `re.split(r'[.!?。！？]+', content)`: split on maximal delimiter runs,
keeping empty pieces at the ends.  The Boolean is true while inside a
delimiter run. -/
def splitSentAux : Bool → PyStr → PyStr → List PyStr
  | false, [], cur => [cur.reverse]
  | false, c :: cs, cur =>
    if isSentencePunct c then cur.reverse :: splitSentAux true cs []
    else splitSentAux false cs (c :: cur)
  | true, [], _ => [[]]
  | true, c :: cs, cur =>
    if isSentencePunct c then splitSentAux true cs cur
    else splitSentAux false cs [c]

def pySplitSentences (s : PyStr) : List PyStr := splitSentAux false s []

/-- The Japanese-script heuristic `re.search(r'[あ-ん]|[ア-ン]|[一-龯]', …)`
(phase3_rag.py:673/753). -/
def hasJapanese (s : PyStr) : Bool :=
  s.any fun c =>
    (0x3042 ≤ c.val && c.val ≤ 0x3093) ||
    (0x30a2 ≤ c.val && c.val ≤ 0x30f3) ||
    (0x4e00 ≤ c.val && c.val ≤ 0x9faf)

/-- `len(set(a).intersection(set(b)))`. -/
def setOverlap {α : Type} [DecidableEq α] (a b : List α) : Nat :=
  (a.dedup.filter (fun x => x ∈ b)).length

/-- The `relevant_sentences` selection of `_extract_key_sentences`: strip,
skip short sentences, score by overlap, keep positives. -/
def scoreSentences (score : PyStr → Nat) (sentences : List PyStr) :
    List (PyStr × Nat) :=
  sentences.filterMap fun sentence =>
    let st := pyStrip sentence
    if st.length < 10 then none
    else if score st > 0 then some (st, score st) else none

/-- The tail of `_extract_key_sentences` (phase3_rag.py:796-802): first
sentence whose stripped form exceeds 20 characters, else a 100-character
prefix with an ellipsis. -/
def extractFallback (sentences : List PyStr) (content : PyStr) : PyStr :=
  match sentences.find? (fun s => decide ((pyStrip s).length > 20)) with
  | some s => fix_encoding_issues (pyStrip s)
  | none =>
    fix_encoding_issues
      (if content.length > 100 then content.take 100 ++ pystr "..." else content)

/-- `TopicSearchRAG._extract_key_sentences` (phase3_rag.py:745-802): the
deterministic fallback summarizer.  Character overlap for Japanese
queries, word overlap otherwise; best-scoring sentence via a stable
descending sort; no truncation of the selected sentence. -/
def extract_key_sentences (content query : PyStr) : PyStr :=
  let sentences := pySplitSentences content
  let relevant :=
    if hasJapanese query then
      scoreSentences
        (fun st => setOverlap (query.map pyLower) (st.map pyLower)) sentences
    else
      scoreSentences
        (fun st => setOverlap (pySplitWs (query.map pyLower))
          (pySplitWs (st.map pyLower))) sentences
  match relevant with
  | [] => extractFallback sentences content
  | _ =>
    fix_encoding_issues
      ((pySortDesc (fun a b => a.2 ≤ b.2) relevant).headD ([], 0)).1

/-- `TopicSearchRAG._generate_topic_summary` (phase3_rag.py:668-709).
`llmResponse` is the outcome of `self.llm.invoke(prompt).content` for the
prompt built from `content[:1000]` and `query`; an exception falls back to
`_extract_key_sentences`.  Only the primary path applies the 150-character
truncation. -/
def generate_topic_summary (llmResponse : Except PyStr PyStr)
    (content query : PyStr) : PyStr :=
  match llmResponse with
  | .ok resp =>
    let summary := fix_encoding_issues (pyStrip resp)
    if summary.length > 150 then summary.take 147 ++ pystr "..." else summary
  | .error _ => extract_key_sentences content query

/-- A 160-character single "sentence" (no sentence punctuation) containing
the query word. -/
def longSentence : PyStr := pystr "alpha" ++ (List.replicate 31 (pystr " beta")).flatten

/-- A tenant (channel) vector store as seen by the search path:
whether the persisted store can be opened (`present` models both the
missing channel directory at phase3_rag.py:556 and the unloaded legacy
store at line 567), and the outcome of
`similarity_search_with_score(query, k)` — an exception is an `error`. -/
structure TenantStore where
  present : Bool
  respond : PyStr → Nat → Except PyStr (List (Doc × ℚ))

/-- The oracle for `self.llm.invoke`: from the chunk content and the query
(the inputs of the prompt) to the model's reply or an exception. -/
def LlmOracle : Type := PyStr → PyStr → Except PyStr PyStr

/-- The result dict built by `search_topics` (phase3_rag.py:604-614),
extended with the `channel_name` key that `search_unified` adds. -/
structure SearchResult where
  title : PyStr
  topic_summary : PyStr
  timestamp_url : PyStr
  relevance_score : ℚ
  uploader : PyStr
  start_time : Option PyStr
  start_seconds : Option ℚ
  content_preview : PyStr
  channel_id : Option PyStr
  channel_name : Option PyStr
deriving DecidableEq, Repr

/-- One result of `search_topics` (phase3_rag.py:600-615): the summary via
`_generate_topic_summary`, the relevance rounded to three decimals, and a
200-character content preview with an ellipsis. -/
def mkSearchResult (llm : LlmOracle) (query : PyStr) (channelId : Option PyStr)
    (d : Doc) (relevance : ℚ) : SearchResult :=
  { title := d.title
    topic_summary := generate_topic_summary (llm d.page_content query) d.page_content query
    timestamp_url := d.timestamp_url
    relevance_score := pyRound3 relevance
    uploader := d.uploader
    start_time := d.start_time
    start_seconds := d.start_seconds
    content_preview :=
      if d.page_content.length > 200 then d.page_content.take 200 ++ pystr "..."
      else d.page_content
    channel_id := channelId
    channel_name := none }

/-- The `relevant_docs` list of phase3_rag.py:581-586: each scored
document whose converted relevance `1 - score` reaches the threshold,
paired with that relevance. -/
def relevant_docs (threshold : ℚ) (docsWithScores : List (Doc × ℚ)) :
    List (Doc × ℚ) :=
  docsWithScores.filterMap fun ds =>
    if threshold ≤ 1 - ds.2 then some (ds.1, 1 - ds.2) else none

/-- `TopicSearchRAG.search_topics` (phase3_rag.py:549-626): over-fetch
`2·max_results` scored documents, convert each Chroma distance to a
relevance `1 - score`, keep those at or above the configured similarity
threshold, sort by relevance descending (stable), truncate to
`max_results` and build result dicts.  A missing store or a raised query
returns `[]`. -/
def search_topics (threshold : ℚ) (llm : LlmOracle) (store : TenantStore)
    (channelId : Option PyStr) (query : PyStr) (maxResults : Nat) :
    List SearchResult :=
  if !store.present then []
  else
    match store.respond query (maxResults * 2) with
    | .error _ => []
    | .ok docsWithScores =>
      if relevant_docs threshold docsWithScores = [] then []
      else
        ((pySortDesc (fun a b => a.2 ≤ b.2)
          (relevant_docs threshold docsWithScores)).take maxResults).map
          fun dr => mkSearchResult llm query channelId dr.1 dr.2

/-- A registered channel (`ChannelInfo` of channel_manager.py) together
with its tenant store. -/
structure Channel where
  id : PyStr
  name : PyStr
  store : TenantStore

/-- One tenant's contribution to `search_unified` (phase3_rag.py:639-657):
skip when the channel filter is truthy and differs from the channel id,
otherwise run the per-channel search capped at `2·max_results` and tag
each result with the channel name and id. -/
def tenant_results (threshold : ℚ) (llm : LlmOracle) (query : PyStr)
    (maxResults : Nat) (channelFilter : Option PyStr) (ch : Channel) :
    List SearchResult :=
  match channelFilter with
  | some f =>
    if f ≠ [] ∧ f ≠ ch.id then []
    else
      (search_topics threshold llm ch.store (some ch.id) query (maxResults * 2)).map
        fun r => { r with channel_name := some ch.name, channel_id := some ch.id }
  | none =>
    (search_topics threshold llm ch.store (some ch.id) query (maxResults * 2)).map
      fun r => { r with channel_name := some ch.name, channel_id := some ch.id }

/-- `TopicSearchRAG.search_unified` (phase3_rag.py:628-666): concatenate
every enabled tenant's contribution, re-sort by `relevance_score`
descending (Python's stable sort), truncate to `max_results`; no enabled
channels yields `[]`. -/
def search_unified (threshold : ℚ) (llm : LlmOracle) (channels : List Channel)
    (channelFilter : Option PyStr) (query : PyStr) (maxResults : Nat) :
    List SearchResult :=
  if channels.isEmpty then []
  else
    (pySortDesc (fun a b => a.relevance_score ≤ b.relevance_score)
      ((channels.map
        (tenant_results threshold llm query maxResults channelFilter)).flatten)).take
      maxResults

/-- Default search result (only a `headD` default in witnesses). -/
def dumResult : SearchResult := ⟨[], [], [], 0, [], none, none, [], none, none⟩

/-- The failing language model used in concrete scenarios: every
summarization request raises and falls back to `_extract_key_sentences`. -/
def llmDown : LlmOracle := fun _ _ => .error (pystr "llm down")

/-- A document with the given page content and title, as stored by the
indexer. -/
def docP (pc ti : PyStr) : Doc :=
  ⟨some ti, ti, pystr "Up", pystr "http://u", pc, pystr "http://u", some (pystr "0:00"),
    pystr "0:10", some 0, 10, []⟩

def storeC1 : TenantStore := ⟨true, fun _ _ => .ok [(docP (pystr "hi") (pystr "T1"), (0.2997 : ℚ))]⟩

-- The unified-search scenario stores: tenant A holds five chunks at
-- distance 0.1 (relevance 0.9), tenant B one chunk at distance 0.05
-- (relevance 0.95); `storeBtie` holds one chunk at relevance 0.9 to
-- exhibit a cross-tenant tie.
def storeA : TenantStore :=
  ⟨true, fun _ _ => .ok
    [(docP (pystr "cA") (pystr "A1"), (0.1 : ℚ)),
     (docP (pystr "cA") (pystr "A2"), (0.1 : ℚ)),
     (docP (pystr "cA") (pystr "A3"), (0.1 : ℚ)),
     (docP (pystr "cA") (pystr "A4"), (0.1 : ℚ)),
     (docP (pystr "cA") (pystr "A5"), (0.1 : ℚ))]⟩

def storeB : TenantStore :=
  ⟨true, fun _ _ => .ok [(docP (pystr "cB") (pystr "B1"), (0.05 : ℚ))]⟩

def storeBtie : TenantStore :=
  ⟨true, fun _ _ => .ok [(docP (pystr "cB") (pystr "B1"), (0.1 : ℚ))]⟩

def chanA : Channel := ⟨pystr "A", pystr "ChannelA", storeA⟩
def chanB : Channel := ⟨pystr "B", pystr "ChannelB", storeB⟩
def chanBtie : Channel := ⟨pystr "B", pystr "ChannelB", storeBtie⟩

/-- A channel whose store directory is missing. -/
def chanBad : Channel :=
  ⟨pystr "bad", pystr "BadChannel", ⟨false, fun _ _ => .error (pystr "missing")⟩⟩

/-- Outcome of one `vectorstore.add_documents(batch)` call, as a
deterministic oracle of the batch contents: success, the service's
token-limit error (`"max_tokens_per_request" in str(e)`), or any other
exception. -/
inductive AddOutcome where
  | success
  | tokenLimit
  | otherError
deriving DecidableEq, Repr

/-- The `for attempt in range(max_retries)` loop of
`_add_documents_with_retry` (phase3_rag.py:347-380), with `al` the
attempts left (`attempt < max_retries - 1` is `al ≥ 1`).  `split` is the
recursive halving performed with budget `max_retries - 1`; an exhausted
loop (`al = 0`, only reachable when `max_retries = 0`) falls through and
returns without adding, like the Python `for` loop.  Errors carry the
store content accumulated so far (the documents already persisted before
the exception). -/
def attemptsLoop (oracle : List Doc → AddOutcome)
    (split : List Doc → List Doc → Except (PyStr × List Doc) (List Doc)) :
    Nat → List Doc → List Doc → Except (PyStr × List Doc) (List Doc)
  | 0, store, _ => .ok store
  | al + 1, store, docs =>
    match oracle docs with
    | .success => .ok (store ++ docs)
    | .tokenLimit =>
      if al ≥ 1 then
        if docs.length / 2 > 0 then split store docs
        else attemptsLoop oracle split al store docs
      else .error (pystr "max_tokens_per_request", store)
    | .otherError =>
      if al ≥ 1 then attemptsLoop oracle split al store docs
      else .error (pystr "add failed", store)

/-- `_add_documents_with_retry` at a given `max_retries` budget: on a
token-limit error with a splittable batch, recurse on the two halves with
budget `max_retries - 1` (phase3_rag.py:360-367). -/
def addRetryLoop (oracle : List Doc → AddOutcome) :
    Nat → List Doc → List Doc → Except (PyStr × List Doc) (List Doc)
  | 0, store, _ => .ok store
  | mr + 1, store, docs =>
    attemptsLoop oracle
      (fun store1 docs1 =>
        match addRetryLoop oracle mr store1 (docs1.take (docs1.length / 2)) with
        | .error e => .error e
        | .ok store2 => addRetryLoop oracle mr store2 (docs1.drop (docs1.length / 2)))
      (mr + 1) store docs

/-- `TopicSearchRAG._add_documents_with_retry` (phase3_rag.py:343-380). -/
def add_documents_with_retry (oracle : List Doc → AddOutcome)
    (store docs : List Doc) (maxRetries : Nat) :
    Except (PyStr × List Doc) (List Doc) :=
  addRetryLoop oracle maxRetries store docs

/-- Split a list into chunks of `k` (`range(0, len, k)` slicing), via a
fuel that always suffices when initialised with the list's length. -/
def chunksOfAux (k : Nat) : Nat → List α → List (List α)
  | _, [] => []
  | 0, l => [l]
  | fuel + 1, x :: xs => (x :: xs.take (k - 1)) :: chunksOfAux k fuel (xs.drop (k - 1))

def chunksOf (k : Nat) (l : List α) : List (List α) :=
  if k = 0 then [] else chunksOfAux k l.length l

/-- Sequentially add batches, threading the growing store and stopping at
the first raised exception. -/
def addSeq (oracle : List Doc → AddOutcome) (mr : Nat) :
    List Doc → List (List Doc) → Except (PyStr × List Doc) (List Doc)
  | store, [] => .ok store
  | store, b :: bs =>
    match add_documents_with_retry oracle store b mr with
    | .error e => .error e
    | .ok store1 => addSeq oracle mr store1 bs

/-- One iteration of the batch loop of `build_vectorstore`
(phase3_rag.py:264-282): estimate the token cost of the 50-document batch
from its whitespace word count (`len(batch_text.split()) * 1.3`); if the
estimate exceeds 200 000, re-slice into
`max(1, int(100 * 200000 / approx_tokens))`-sized sub-batches, each
submitted through the retrying adder; otherwise submit the batch
directly. -/
def processBatch (oracle : List Doc → AddOutcome) (store batch : List Doc) :
    Except (PyStr × List Doc) (List Doc) :=
  if ((pySplitWs (List.intercalate [' '] (batch.map (·.page_content)))).length : ℚ) * (13/10)
      > 200000 then
    addSeq oracle 3 store
      (chunksOf
        (max 1 (pyInt ((100 * 200000 : ℚ) /
          (((pySplitWs (List.intercalate [' '] (batch.map (·.page_content)))).length : ℚ) *
            (13/10))))).toNat
        batch)
  else
    add_documents_with_retry oracle store batch 3

def processBatches (oracle : List Doc → AddOutcome) :
    List Doc → List (List Doc) → Except (PyStr × List Doc) (List Doc)
  | store, [] => .ok store
  | store, b :: bs =>
    match processBatch oracle store b with
    | .error e => .error e
    | .ok s1 => processBatches oracle s1 bs

/-- The embedding phase of `build_vectorstore` (phase3_rag.py:260-282):
fixed 50-document batches, each through `processBatch`. -/
def embed_documents (oracle : List Doc → AddOutcome) (store docs : List Doc) :
    Except (PyStr × List Doc) (List Doc) :=
  processBatches oracle store (chunksOf 50 docs)

/-- The persisted `build_info.json` manifest (phase3_rag.py:313-327),
without the wall-clock `built_at` field and the echoed `config` section. -/
structure BuildInfo where
  total_videos : Nat
  total_segments : Nat
  total_chunks : Nat
  new_videos_count : Nat
  incremental_mode : Bool
  channel_id : Option PyStr
  processed_video_ids : List PyStr
deriving DecidableEq, Repr

/-- The persistent state of one vector store: its manifest (absent before
the first successful build) and the stored documents. -/
structure IndexState where
  buildInfo : Option BuildInfo
  store : List Doc
deriving DecidableEq, Repr

/-- The counts of a build report (the `build_info` dict returned to the
caller). -/
structure BuildReport where
  total_videos : Nat
  total_segments : Nat
  total_chunks : Nat
  new_videos_count : Nat
deriving DecidableEq, Repr

/-- The dict returned by `build_vectorstore`. -/
structure BuildResult where
  success : Bool
  error : Option PyStr
  report : Option BuildReport
deriving DecidableEq, Repr

/-- `processed_video_ids` as read from the manifest; an absent manifest
yields the empty set (the legacy store-scan reconstruction of
phase3_rag.py:95-109 concerns manifests written before this field existed
and is outside the model). -/
def processedIdsOf (st : IndexState) : List PyStr :=
  match st.buildInfo with
  | some bi => bi.processed_video_ids
  | none => []

/-- The per-file predicate of `_filter_new_enhanced_files`
(phase3_rag.py:115-129): keep a unit iff its `video_id` is truthy and not
yet processed (unreadable files, which the source also keeps, do not
arise for in-memory units). -/
def keepNewFile (processed : List PyStr) (u : VideoData) : Bool :=
  match u.video_id with
  | some vid => vid ≠ [] && !(processed.contains vid)
  | none => false

/-- `TopicSearchRAG._filter_new_enhanced_files` (phase3_rag.py:74-132). -/
def filter_new_enhanced_files (units : List VideoData) (st : IndexState) :
    List VideoData :=
  units.filter (keepNewFile (processedIdsOf st))

/-- All chunk documents of the given units, in file order
(phase3_rag.py:208-230). -/
def documents_of (chunkSize chunkOverlap : ℤ) (files : List VideoData) : List Doc :=
  files.flatMap fun u => (process_video_for_vectorstore chunkSize chunkOverlap u).1

def segment_total (files : List VideoData) : Nat :=
  (files.map (·.segments.length)).sum

/-- The video ids recorded after a build (phase3_rag.py:287-294): each
file's truthy `video_id`. -/
def newVideoIds (files : List VideoData) : List PyStr :=
  (files.filterMap (·.video_id)).filter (· ≠ [])

/-- The early return of the incremental path when no new files are found
(phase3_rag.py:183-196): success with an all-zero report and no state
change. -/
def emptyIncrementalResult : BuildResult := ⟨true, none, some ⟨0, 0, 0, 0⟩⟩

/-- The main body of `build_vectorstore` after file discovery
(phase3_rag.py:200-341): guard against empty inputs, chunk every file,
embed in batches into the existing store (incremental) or a cleared one
(full rebuild), then write the manifest, merging the previously processed
ids in incremental mode (`list(set(existing + new))`, modelled as
`dedup`).  A raised embedding error is caught and reported as a failure
with the store left partially grown and the manifest untouched. -/
def build_from (oracle : List Doc → AddOutcome) (chunkSize chunkOverlap : ℤ)
    (incremental : Bool) (channelId : Option PyStr) (files : List VideoData)
    (st : IndexState) : BuildResult × IndexState :=
  if files.isEmpty then
    (⟨false, some (pystr "No enhanced files found"), none⟩, st)
  else if (documents_of chunkSize chunkOverlap files).isEmpty then
    (⟨false, some (pystr "No documents created"), none⟩, st)
  else
    match embed_documents oracle (if incremental then st.store else [])
        (documents_of chunkSize chunkOverlap files) with
    | .error ep => (⟨false, some ep.1, none⟩, ⟨st.buildInfo, ep.2⟩)
    | .ok store1 =>
      (⟨true, none, some ⟨files.length, segment_total files,
          (documents_of chunkSize chunkOverlap files).length,
          (newVideoIds files).length⟩⟩,
        ⟨some ⟨files.length, segment_total files,
          (documents_of chunkSize chunkOverlap files).length,
          (newVideoIds files).length, incremental, channelId,
          ((if incremental then processedIdsOf st else []) ++ newVideoIds files).dedup⟩,
          store1⟩)

/-- `TopicSearchRAG.build_vectorstore` (phase3_rag.py:134-341) for one
store: in incremental mode, diff the units against the manifest first and
return the all-zero success report without touching the store when
nothing is new. -/
def build_vectorstore (oracle : List Doc → AddOutcome) (chunkSize chunkOverlap : ℤ)
    (incremental : Bool) (channelId : Option PyStr) (units : List VideoData)
    (st : IndexState) : BuildResult × IndexState :=
  if incremental then
    if (filter_new_enhanced_files units st).isEmpty then (emptyIncrementalResult, st)
    else build_from oracle chunkSize chunkOverlap true channelId
      (filter_new_enhanced_files units st) st
  else build_from oracle chunkSize chunkOverlap false channelId units st

def docD1 : Doc := docP (pystr "one") (pystr "D1")
def docD2 : Doc := docP (pystr "two") (pystr "D2")

/-- The size-limited embedding service of the witness: any batch of two or
more documents overflows, single documents fit. -/
def oracle2 : List Doc → AddOutcome :=
  fun ds => if ds.length ≥ 2 then AddOutcome.tokenLimit else AddOutcome.success

deriving instance DecidableEq for Except

-- Helper: Python `int()` agrees with the floor on non-negative rationals.
theorem pyInt_eq_floor {q : ℚ} (h : 0 ≤ q) : pyInt q = ⌊q⌋ := by
  unfold pyInt
  rw [Rat.floor_def]
  exact Int.tdiv_eq_ediv (Rat.num_nonneg.mpr h) (Int.ofNat_le.mpr (Nat.zero_le _))

/-- **C5**: for every `source_url` and `start_seconds`, the constructed
`timestamp_url` equals `source_url` with `t=<floor(start_seconds)>s`
appended, joined with `&` when `source_url` already contains `?` and with
`?` otherwise, and equals `source_url` unchanged when `start_seconds` is
zero or absent. -/
theorem create_timestamp_url_spec (url : PyStr) (s : ℚ) :
    create_timestamp_url url none = url ∧
    create_timestamp_url url (some 0) = url ∧
    (0 < s →
      create_timestamp_url url (some s) =
        url ++ (if url.contains '?' then pystr "&t=" else pystr "?t=") ++
          (toString ⌊s⌋).data ++ pystr "s") := by
  refine ⟨rfl, by simp [create_timestamp_url], fun hs => ?_⟩
  rw [create_timestamp_url, pyInt_eq_floor hs.le]
  rw [if_neg (by exact absurd · (not_le.mpr hs))]
  split <;> simp_all

-- Small list helpers used by the chunker invariants.
theorem headD_eq_of_ne {α : Type} {l : List α} (h : l ≠ []) (a b : α) :
    l.headD a = l.headD b := by
  cases l with
  | nil => exact absurd rfl h
  | cons x xs => rfl

theorem headD_append {α : Type} {l : List α} (h : l ≠ []) (l' : List α) (d : α) :
    (l ++ l').headD d = l.headD d := by
  cases l with
  | nil => exact absurd rfl h
  | cons x xs => rfl

theorem headD_mem {α : Type} {l : List α} (h : l ≠ []) (d : α) : l.headD d ∈ l := by
  cases l with
  | nil => exact absurd rfl h
  | cons x xs => exact List.mem_cons_self x xs

theorem drop_sub_three_ne_nil {α : Type} {l : List α} (h : l ≠ []) :
    l.drop (l.length - 3) ≠ [] := by
  rw [Ne, List.drop_eq_nil_iff]
  have : 0 < l.length := List.length_pos.mpr h
  omega

theorem sorted_headD_le {l : List Segment} (hs : List.Sorted segStartLe l)
    {x : Segment} (hx : x ∈ l) :
    (l.headD dumSeg).start_seconds ≤ x.start_seconds := by
  cases l with
  | nil => exact absurd hx (List.not_mem_nil x)
  | cons a as =>
    rcases List.mem_cons.mp hx with h | h
    · subst h; exact le_refl _
    · exact (List.sorted_cons.mp hs).1 x h

-- A chunk document built at close time satisfies both chunk-boundary
-- properties when its start variables match the head of its constituents
-- and the closing segment is the last constituent.
theorem chunk_doc_ok (v : VideoData) (buffer : PyStr) (t : PyStr) (s : ℚ)
    (seg : Segment) (segs : List Segment) (hne : segs ≠ [])
    (hs : (segs.headD dumSeg).start_seconds = s)
    (ht : (segs.headD dumSeg).start_time = t)
    (hlast : segs.getLastD dumSeg = seg) :
    startsOk (mkChunkDoc v buffer (some t) (some s) seg.end_time seg.end_seconds segs) ∧
    endsOk (mkChunkDoc v buffer (some t) (some s) seg.end_time seg.end_seconds segs) := by
  subst hs
  subst ht
  subst hlast
  exact ⟨⟨hne, rfl, rfl⟩, rfl, rfl⟩

theorem structInv_mk {st : ChunkState}
    (h1 : ∀ d ∈ st.docs, startsOk d ∧ endsOk d)
    (h2 : curOk st.cur st.segs st.buffer) : StructInv st := ⟨h1, h2⟩

theorem structInv_step {chunkSize chunkOverlap : ℤ} {v : VideoData}
    {st : ChunkState} {seg : Segment} {nx : Bool}
    (h : StructInv st) : StructInv (chunk_step chunkSize chunkOverlap v st seg nx) := by
  obtain ⟨hdocs, hcur⟩ := h
  unfold chunk_step
  rcases hc : st.cur with _ | ⟨t, s⟩ <;>
    simp only [hc] at hcur ⊢
  · -- current start is None: a fresh chunk starts at `seg`
    obtain ⟨hsegs, hbuf⟩ := hcur
    simp only [hsegs, List.nil_append]
    have hone : ([seg] : List Segment) ≠ [] := by simp
    generalize (if st.buffer = [] then pyStrip seg.text
      else st.buffer ++ [' '] ++ pyStrip seg.text) = buffer1
    split
    · split
      · refine structInv_mk ?_ ?_
        · intro d hd
          rcases List.mem_append.mp hd with hd | hd
          · exact hdocs d hd
          · rcases List.mem_singleton.mp hd with rfl
            exact chunk_doc_ok v _ _ _ seg [seg] hone rfl rfl rfl
        · have hnetl := drop_sub_three_ne_nil hone
          refine ⟨hnetl, ?_, ?_⟩ <;>
            rw [headD_eq_of_ne hnetl dumSeg seg]
      · refine structInv_mk ?_ ⟨rfl, rfl⟩
        intro d hd
        rcases List.mem_append.mp hd with hd | hd
        · exact hdocs d hd
        · rcases List.mem_singleton.mp hd with rfl
          exact chunk_doc_ok v _ _ _ seg [seg] hone rfl rfl rfl
    · exact structInv_mk hdocs ⟨by simp, rfl, rfl⟩
  · -- current start is (t, s), carried from the head of `chunk_segments`
    obtain ⟨hne, hheads, hheadt⟩ := hcur
    have hconcat : st.segs ++ [seg] ≠ [] := by simp
    have hheads1 : ((st.segs ++ [seg]).headD dumSeg).start_seconds = s := by
      rw [headD_append hne]; exact hheads
    have hheadt1 : ((st.segs ++ [seg]).headD dumSeg).start_time = t := by
      rw [headD_append hne]; exact hheadt
    have hlast1 : (st.segs ++ [seg]).getLastD dumSeg = seg := List.getLastD_concat _ _ _
    generalize (if st.buffer = [] then pyStrip seg.text
      else st.buffer ++ [' '] ++ pyStrip seg.text) = buffer1
    split
    · split
      · refine structInv_mk ?_ ?_
        · intro d hd
          rcases List.mem_append.mp hd with hd | hd
          · exact hdocs d hd
          · rcases List.mem_singleton.mp hd with rfl
            exact chunk_doc_ok v _ _ _ seg _ hconcat hheads1 hheadt1 hlast1
        · have hnetl := drop_sub_three_ne_nil hconcat
          refine ⟨hnetl, ?_, ?_⟩ <;>
            rw [headD_eq_of_ne hnetl dumSeg seg]
      · refine structInv_mk ?_ ⟨rfl, rfl⟩
        intro d hd
        rcases List.mem_append.mp hd with hd | hd
        · exact hdocs d hd
        · rcases List.mem_singleton.mp hd with rfl
          exact chunk_doc_ok v _ _ _ seg _ hconcat hheads1 hheadt1 hlast1
    · exact structInv_mk hdocs ⟨hconcat, hheads1, hheadt1⟩

theorem structInv_loop {chunkSize chunkOverlap : ℤ} {v : VideoData} :
    ∀ (rest : List Segment) (st : ChunkState), StructInv st →
      StructInv (chunk_loop chunkSize chunkOverlap v st rest)
  | [], st, h => h
  | seg :: rest, st, h => by
    rw [chunk_loop]
    split
    · exact structInv_loop rest st h
    · exact structInv_loop rest _ (structInv_step h)

theorem ordInv_mk {st : ChunkState} {rest : List Segment}
    (h1 : ∀ d ∈ st.docs, d.start_seconds.isSome = true)
    (h2 : List.Chain' docStartLe st.docs)
    (h3 : ∀ d ∈ st.docs, ∀ y ∈ rest, docStartD d ≤ y.start_seconds)
    (h4 : ordCurOk st.cur st.segs st.buffer st.docs rest) :
    OrdInv st rest := ⟨h1, h2, h3, h4⟩

-- Reseeding the next chunk from the overlap anchor
-- `chunk_segments[max(0, len - 3)]` preserves the ordering invariant.
theorem ordCurOk_reseed {segs1 : List Segment} {docs1 : List Doc}
    {rest : List Segment} {s : ℚ}
    (hne : segs1 ≠ []) (hsort1 : List.Sorted segStartLe segs1)
    (hhead : (segs1.headD dumSeg).start_seconds = s)
    (hdocs1 : ∀ d ∈ docs1, docStartD d ≤ s)
    (hbound : ∀ x ∈ segs1, ∀ y ∈ rest, x.start_seconds ≤ y.start_seconds)
    (seg : Segment) (buffer : PyStr) :
    ordCurOk
      (some (((segs1.drop (segs1.length - 3)).headD seg).start_time,
        ((segs1.drop (segs1.length - 3)).headD seg).start_seconds))
      (segs1.drop (segs1.length - 3)) buffer docs1 rest := by
  have htlne : segs1.drop (segs1.length - 3) ≠ [] := drop_sub_three_ne_nil hne
  have hanchor_mem : (segs1.drop (segs1.length - 3)).headD seg ∈ segs1 :=
    (List.drop_sublist _ _).subset (headD_mem htlne seg)
  have hs_le_anchor :
      s ≤ ((segs1.drop (segs1.length - 3)).headD seg).start_seconds := by
    rw [← hhead]
    exact sorted_headD_le hsort1 hanchor_mem
  refine ⟨htlne, ?_, ?_, ?_, ?_, ?_⟩
  · rw [headD_eq_of_ne htlne dumSeg seg]
  · exact List.Pairwise.sublist (List.drop_sublist _ _) hsort1
  · intro d hd
    exact (hdocs1 d hd).trans hs_le_anchor
  · intro x hx y hy
    exact hbound x ((List.drop_sublist _ _).subset hx) y hy
  · intro y hy
    exact hbound _ hanchor_mem y hy

-- The three possible post-states of one loop iteration, each preserving
-- the ordering invariant.
theorem ordInv_closed_reseed {v : VideoData} {docs0 : List Doc}
    {rest : List Segment} (buffer1 buffer2 : PyStr) (curT : PyStr) (curS : ℚ)
    (segs1 : List Segment) (seg : Segment) (endT : PyStr) (endS : ℚ)
    (h1 : ∀ d ∈ docs0, d.start_seconds.isSome = true)
    (h2 : List.Chain' docStartLe docs0)
    (h3 : ∀ d ∈ docs0, ∀ y ∈ rest, docStartD d ≤ y.start_seconds)
    (hdocs_le : ∀ d ∈ docs0, docStartD d ≤ curS)
    (hcurS_rest : ∀ y ∈ rest, curS ≤ y.start_seconds)
    (hne1 : segs1 ≠ []) (hsort1 : List.Sorted segStartLe segs1)
    (hhead1 : (segs1.headD dumSeg).start_seconds = curS)
    (hbound1 : ∀ x ∈ segs1, ∀ y ∈ rest, x.start_seconds ≤ y.start_seconds) :
    OrdInv
      { buffer := buffer2
        cur := some (((segs1.drop (segs1.length - 3)).headD seg).start_time,
          ((segs1.drop (segs1.length - 3)).headD seg).start_seconds)
        segs := segs1.drop (segs1.length - 3)
        docs := docs0 ++ [mkChunkDoc v buffer1 (some curT) (some curS) endT endS segs1] }
      rest := by
  have hdocs_le' : ∀ d ∈ docs0 ++
      [mkChunkDoc v buffer1 (some curT) (some curS) endT endS segs1],
      docStartD d ≤ curS := by
    intro d hd
    rcases List.mem_append.mp hd with hd | hd
    · exact hdocs_le d hd
    · rcases List.mem_singleton.mp hd with rfl
      exact le_refl _
  refine ordInv_mk ?_ ?_ ?_ ?_
  · intro d hd
    rcases List.mem_append.mp hd with hd | hd
    · exact h1 d hd
    · rcases List.mem_singleton.mp hd with rfl
      rfl
  · refine List.Chain'.append h2 (List.chain'_singleton _) ?_
    intro x hx y hy
    rcases Option.mem_some_iff.mp hy with rfl
    exact hdocs_le x (List.mem_of_getLast?_eq_some (Option.mem_def.mp hx))
  · intro d hd y hy
    rcases List.mem_append.mp hd with hd | hd
    · exact h3 d hd y hy
    · rcases List.mem_singleton.mp hd with rfl
      exact hcurS_rest y hy
  · exact ordCurOk_reseed hne1 hsort1 hhead1 hdocs_le' hbound1 seg buffer2

theorem ordInv_closed_reset {v : VideoData} {docs0 : List Doc}
    {rest : List Segment} (buffer1 : PyStr) (curT : PyStr) (curS : ℚ)
    (segs1 : List Segment) (endT : PyStr) (endS : ℚ)
    (h1 : ∀ d ∈ docs0, d.start_seconds.isSome = true)
    (h2 : List.Chain' docStartLe docs0)
    (h3 : ∀ d ∈ docs0, ∀ y ∈ rest, docStartD d ≤ y.start_seconds)
    (hdocs_le : ∀ d ∈ docs0, docStartD d ≤ curS)
    (hcurS_rest : ∀ y ∈ rest, curS ≤ y.start_seconds) :
    OrdInv
      { buffer := []
        cur := none
        segs := []
        docs := docs0 ++ [mkChunkDoc v buffer1 (some curT) (some curS) endT endS segs1] }
      rest := by
  refine ordInv_mk ?_ ?_ ?_ ⟨rfl, rfl⟩
  · intro d hd
    rcases List.mem_append.mp hd with hd | hd
    · exact h1 d hd
    · rcases List.mem_singleton.mp hd with rfl
      rfl
  · refine List.Chain'.append h2 (List.chain'_singleton _) ?_
    intro x hx y hy
    rcases Option.mem_some_iff.mp hy with rfl
    exact hdocs_le x (List.mem_of_getLast?_eq_some (Option.mem_def.mp hx))
  · intro d hd y hy
    rcases List.mem_append.mp hd with hd | hd
    · exact h3 d hd y hy
    · rcases List.mem_singleton.mp hd with rfl
      exact hcurS_rest y hy

theorem ordInv_accum {docs0 : List Doc} {rest : List Segment}
    (buffer1 : PyStr) (curT : PyStr) (curS : ℚ) (segs1 : List Segment)
    (h1 : ∀ d ∈ docs0, d.start_seconds.isSome = true)
    (h2 : List.Chain' docStartLe docs0)
    (h3 : ∀ d ∈ docs0, ∀ y ∈ rest, docStartD d ≤ y.start_seconds)
    (hdocs_le : ∀ d ∈ docs0, docStartD d ≤ curS)
    (hcurS_rest : ∀ y ∈ rest, curS ≤ y.start_seconds)
    (hne1 : segs1 ≠ []) (hsort1 : List.Sorted segStartLe segs1)
    (hhead1 : (segs1.headD dumSeg).start_seconds = curS)
    (hbound1 : ∀ x ∈ segs1, ∀ y ∈ rest, x.start_seconds ≤ y.start_seconds) :
    OrdInv { buffer := buffer1, cur := some (curT, curS), segs := segs1, docs := docs0 }
      rest :=
  ordInv_mk h1 h2 h3 ⟨hne1, hhead1, hsort1, hdocs_le, hbound1, hcurS_rest⟩

theorem ordInv_step {chunkSize chunkOverlap : ℤ} {v : VideoData}
    {st : ChunkState} {seg : Segment} {rest : List Segment} {nx : Bool}
    (hsort : List.Sorted segStartLe (seg :: rest))
    (h : OrdInv st (seg :: rest)) :
    OrdInv (chunk_step chunkSize chunkOverlap v st seg nx) rest := by
  obtain ⟨h1, h2, h3, hcur⟩ := h
  have hseg_rest : ∀ y ∈ rest, seg.start_seconds ≤ y.start_seconds :=
    fun y hy => (List.sorted_cons.mp hsort).1 y hy
  have h3' : ∀ d ∈ st.docs, ∀ y ∈ rest, docStartD d ≤ y.start_seconds :=
    fun d hd y hy => h3 d hd y (List.mem_cons_of_mem seg hy)
  unfold chunk_step
  rcases hc : st.cur with _ | ⟨t, s⟩ <;>
    simp only [hc] at hcur ⊢
  · -- current start is None: a fresh chunk starts at `seg`
    obtain ⟨hsegs, hbuf⟩ := hcur
    simp only [hsegs, List.nil_append]
    have hone : ([seg] : List Segment) ≠ [] := by simp
    have hdocs_le : ∀ d ∈ st.docs, docStartD d ≤ seg.start_seconds :=
      fun d hd => h3 d hd seg (List.mem_cons_self seg rest)
    have hbound1 : ∀ x ∈ ([seg] : List Segment), ∀ y ∈ rest,
        x.start_seconds ≤ y.start_seconds := by
      intro x hx y hy
      rcases List.mem_singleton.mp hx with rfl
      exact hseg_rest y hy
    generalize (if st.buffer = [] then pyStrip seg.text
      else st.buffer ++ [' '] ++ pyStrip seg.text) = buffer1
    split
    · split
      · exact ordInv_closed_reseed buffer1 _ _ _ [seg] seg _ _
          h1 h2 h3' hdocs_le hseg_rest hone (List.sorted_singleton seg) rfl hbound1
      · exact ordInv_closed_reset buffer1 _ _ [seg] _ _
          h1 h2 h3' hdocs_le hseg_rest
    · exact ordInv_accum buffer1 _ _ [seg]
        h1 h2 h3' hdocs_le hseg_rest hone (List.sorted_singleton seg) rfl hbound1
  · -- current start is (t, s), carried from the head of `chunk_segments`
    obtain ⟨hne, hheads, hsort0, hdocs_le, hbound0, hs_rest0⟩ := hcur
    have hconcat : st.segs ++ [seg] ≠ [] := by simp
    have hheads1 : ((st.segs ++ [seg]).headD dumSeg).start_seconds = s := by
      rw [headD_append hne]; exact hheads
    have hsort1 : List.Sorted segStartLe (st.segs ++ [seg]) := by
      refine List.pairwise_append.mpr ⟨hsort0, List.sorted_singleton seg, ?_⟩
      intro x hx y hy
      rcases List.mem_singleton.mp hy with rfl
      exact hbound0 x hx _ (List.mem_cons_self _ rest)
    have hbound1 : ∀ x ∈ st.segs ++ [seg], ∀ y ∈ rest,
        x.start_seconds ≤ y.start_seconds := by
      intro x hx y hy
      rcases List.mem_append.mp hx with hx | hx
      · exact hbound0 x hx y (List.mem_cons_of_mem seg hy)
      · rcases List.mem_singleton.mp hx with rfl
        exact hseg_rest y hy
    have hs_rest : ∀ y ∈ rest, s ≤ y.start_seconds :=
      fun y hy => hs_rest0 y (List.mem_cons_of_mem seg hy)
    generalize (if st.buffer = [] then pyStrip seg.text
      else st.buffer ++ [' '] ++ pyStrip seg.text) = buffer1
    split
    · split
      · exact ordInv_closed_reseed buffer1 _ _ _ (st.segs ++ [seg]) seg _ _
          h1 h2 h3' hdocs_le hs_rest hconcat hsort1 hheads1 hbound1
      · exact ordInv_closed_reset buffer1 _ _ (st.segs ++ [seg]) _ _
          h1 h2 h3' hdocs_le hs_rest
    · exact ordInv_accum buffer1 _ _ (st.segs ++ [seg])
        h1 h2 h3' hdocs_le hs_rest hconcat hsort1 hheads1 hbound1

theorem ordInv_tail {st : ChunkState} {seg : Segment} {rest : List Segment}
    (h : OrdInv st (seg :: rest)) : OrdInv st rest := by
  obtain ⟨h1, h2, h3, hcur⟩ := h
  refine ordInv_mk h1 h2
    (fun d hd y hy => h3 d hd y (List.mem_cons_of_mem seg hy)) ?_
  rcases hc : st.cur with _ | ⟨t, s⟩ <;> simp only [hc] at hcur ⊢
  · exact hcur
  · obtain ⟨hne, hheads, hsort0, hdocs_le, hbound0, hs_rest0⟩ := hcur
    exact ⟨hne, hheads, hsort0, hdocs_le,
      fun x hx y hy => hbound0 x hx y (List.mem_cons_of_mem seg hy),
      fun y hy => hs_rest0 y (List.mem_cons_of_mem seg hy)⟩

theorem ordInv_loop {chunkSize chunkOverlap : ℤ} {v : VideoData} :
    ∀ (rest : List Segment) (st : ChunkState),
      List.Sorted segStartLe rest → OrdInv st rest →
      OrdInv (chunk_loop chunkSize chunkOverlap v st rest) []
  | [], _, _, h => h
  | seg :: rest, st, hs, h => by
    rw [chunk_loop]
    split
    · exact ordInv_loop rest st (List.sorted_cons.mp hs).2 (ordInv_tail h)
    · exact ordInv_loop rest _ (List.sorted_cons.mp hs).2 (ordInv_step hs h)

/-- **C3**: for every unit whose input segments are time-ordered
(non-decreasing `start_seconds`), the emitted chunk list satisfies
`chunks[i].start_seconds ≤ chunks[i+1].start_seconds` for every adjacent
pair (every chunk carries a start, and the starts are non-decreasing),
including across the overlap-reseeding step that re-anchors the next
chunk's start to an earlier constituent segment. -/
theorem chunk_start_monotone (chunkSize chunkOverlap : ℤ) (v : VideoData)
    (hsorted : List.Sorted segStartLe v.segments) :
    (∀ d ∈ (process_video_for_vectorstore chunkSize chunkOverlap v).1,
        d.start_seconds.isSome = true) ∧
    List.Chain' docStartLe (process_video_for_vectorstore chunkSize chunkOverlap v).1 := by
  rw [process_video_for_vectorstore]
  split
  · simp
  · have hO : OrdInv (chunk_loop chunkSize chunkOverlap v ⟨[], none, [], []⟩ v.segments)
        [] :=
      ordInv_loop v.segments _ hsorted
        (ordInv_mk (by simp) (by simp) (by simp) ⟨rfl, rfl⟩)
    set st := chunk_loop chunkSize chunkOverlap v ⟨[], none, [], []⟩ v.segments with hst
    obtain ⟨h1, h2, h3, hcur⟩ := hO
    dsimp only
    rw [chunk_final]
    split
    · -- final chunk emitted from the remaining buffer
      rename_i hbuf
      rcases hc : st.cur with _ | ⟨t, s⟩ <;> simp only [hc] at hcur ⊢
      · rw [hcur.2] at hbuf
        exact absurd rfl hbuf
      · obtain ⟨hne, hheads, hsort0, hdocs_le, hbound0, hs_rest0⟩ := hcur
        constructor
        · intro d hd
          rcases List.mem_append.mp hd with hd | hd
          · exact h1 d hd
          · rcases List.mem_singleton.mp hd with rfl
            rfl
        · refine List.Chain'.append h2 (List.chain'_singleton _) ?_
          intro x hx y hy
          rcases Option.mem_some_iff.mp hy with rfl
          exact hdocs_le x (List.mem_of_getLast?_eq_some (Option.mem_def.mp hx))
    · exact ⟨h1, h2⟩

/-- Witness for C3 at a concrete time-ordered unit. -/
theorem chunk_start_monotone_witness :
    List.Sorted segStartLe videoW.segments ∧
    ((∀ d ∈ (process_video_for_vectorstore 8 3 videoW).1,
        d.start_seconds.isSome = true) ∧
      List.Chain' docStartLe (process_video_for_vectorstore 8 3 videoW).1) :=
  ⟨by decide, chunk_start_monotone 8 3 videoW (by decide)⟩

/-- **C4 (amended)**: every chunk's `start_seconds`/`start_time` equal
those of its first constituent segment; every non-final chunk's
`end_seconds` equals the `end_seconds` of its last constituent segment;
the final chunk's `end_seconds` is either its last constituent's (when it
was closed inside the loop) or the `end_seconds` of the unit's **last raw
segment** (when it was closed by the trailing-buffer branch), which can
differ from its last constituent's when trailing segments have empty
text. -/
theorem chunk_bounds (chunkSize chunkOverlap : ℤ) (v : VideoData) :
    (∀ d ∈ (process_video_for_vectorstore chunkSize chunkOverlap v).1,
        d.constituents ≠ [] ∧
        d.start_seconds = some (d.constituents.headD dumSeg).start_seconds ∧
        d.start_time = some (d.constituents.headD dumSeg).start_time) ∧
    (∀ d ∈ (process_video_for_vectorstore chunkSize chunkOverlap v).1.dropLast,
        d.end_seconds = (d.constituents.getLastD dumSeg).end_seconds) ∧
    (∀ d, (process_video_for_vectorstore chunkSize chunkOverlap v).1.getLast? = some d →
        d.end_seconds = (d.constituents.getLastD dumSeg).end_seconds ∨
        d.end_seconds = (v.segments.getLastD dumSeg).end_seconds) := by
  rw [process_video_for_vectorstore]
  split
  · simp
  · have hS : StructInv (chunk_loop chunkSize chunkOverlap v ⟨[], none, [], []⟩ v.segments) :=
      structInv_loop v.segments _ ⟨by simp, rfl, rfl⟩
    set st := chunk_loop chunkSize chunkOverlap v ⟨[], none, [], []⟩ v.segments with hst
    obtain ⟨hds, hcur⟩ := hS
    dsimp only
    rw [chunk_final]
    split
    · -- final chunk emitted from the remaining buffer
      rename_i hbuf
      rcases hc : st.cur with _ | ⟨t, s⟩ <;> simp only [hc] at hcur ⊢
      · rw [hcur.2] at hbuf
        exact absurd rfl hbuf
      · obtain ⟨hne, hheads, hheadt⟩ := hcur
        refine ⟨?_, ?_, ?_⟩
        · intro d hd
          rcases List.mem_append.mp hd with hd | hd
          · exact (hds d hd).1
          · rcases List.mem_singleton.mp hd with rfl
            refine ⟨hne, ?_, ?_⟩ <;>
              simp only [mkChunkDoc, Option.map_some'] <;>
              first
              | rw [hheads]
              | rw [hheadt]
        · rw [List.dropLast_concat]
          intro d hd
          exact (hds d hd).2.1
        · intro d hd
          rw [List.getLast?_concat] at hd
          rcases Option.some_inj.mp hd with rfl
          exact Or.inr rfl
    · refine ⟨fun d hd => (hds d hd).1, ?_, ?_⟩
      · intro d hd
        exact (hds d ((List.dropLast_sublist _).mem hd)).2.1
      · intro d hd
        exact Or.inl (hds d (List.mem_of_getLast?_eq_some hd)).2.1

/-- Witness for C4's amended statement at the first chunk of the concrete
unit. -/
theorem chunk_bounds_witness :
    ((process_video_for_vectorstore 8 3 videoW).1.headD dumDoc).constituents ≠ [] ∧
    ((process_video_for_vectorstore 8 3 videoW).1.headD dumDoc).start_seconds =
      some ((((process_video_for_vectorstore 8 3 videoW).1.headD dumDoc).constituents.headD
        dumSeg).start_seconds) ∧
    ((process_video_for_vectorstore 8 3 videoW).1.headD dumDoc).start_time =
      some ((((process_video_for_vectorstore 8 3 videoW).1.headD dumDoc).constituents.headD
        dumSeg).start_time) :=
  (chunk_bounds 8 3 videoW).1 _ (by decide)

/-- **C4 counterexample**: at `videoX` (default chunk size 1000 and
overlap 200), the final chunk's `end_seconds` (20, from the unit's last
raw segment) differs from the `end_seconds` of its last constituent
segment (10): the claim "the chunk's end_seconds equals the end_seconds
of the chunk's last constituent (accumulated) segment … whatever the
trailing segments' text content" is false. -/
theorem chunk_bounds_counterexample :
    ¬ (∀ d ∈ (process_video_for_vectorstore 1000 200 videoX).1,
        d.end_seconds = (d.constituents.getLastD dumSeg).end_seconds) := by
  decide

/-- **C9 (amended)**: on the primary path (language-model call succeeds)
the summary is at most 150 characters, truncated to 147 characters plus an
ellipsis when longer; on failure the summarizer returns
`_extract_key_sentences`, which applies no 150-character cap. -/
theorem generate_topic_summary_amended (resp content query e : PyStr) :
    (generate_topic_summary (.ok resp) content query).length ≤ 150 ∧
    (150 < (fix_encoding_issues (pyStrip resp)).length →
      generate_topic_summary (.ok resp) content query =
        (fix_encoding_issues (pyStrip resp)).take 147 ++ pystr "...") ∧
    generate_topic_summary (.error e) content query =
      extract_key_sentences content query := by
  refine ⟨?_, ?_, rfl⟩
  · rw [generate_topic_summary]
    split
    · rename_i hlen
      have h3 : (pystr "...").length = 3 := rfl
      rw [List.length_append, List.length_take, h3]
      omega
    · rename_i hlen
      omega
  · intro h
    rw [generate_topic_summary, if_pos h]

set_option maxRecDepth 8000 in
/-- **C9 counterexample**: when the language-model call fails, the
fallback path returns the best-overlap sentence untruncated: for a
160-character sentence containing the query word, `summarize` returns
160 characters, refuting "at most 150 characters … including on the
deterministic non-AI fallback path". -/
theorem generate_topic_summary_counterexample :
    150 < (generate_topic_summary (.error (pystr "rate limited"))
      longSentence (pystr "alpha")).length := by
  decide

set_option maxRecDepth 8000 in
/-- Witness for C9's amended statement: a 160-character model response is
truncated to exactly 150 characters ending in an ellipsis. -/
theorem generate_topic_summary_amended_witness :
    150 < (fix_encoding_issues (pyStrip longSentence)).length ∧
    generate_topic_summary (.ok longSentence) [] [] =
      (fix_encoding_issues (pyStrip longSentence)).take 147 ++ pystr "..." :=
  ⟨by decide, (generate_topic_summary_amended longSentence [] [] []).2.1 (by decide)⟩

-- Membership is preserved by the stable descending insertion sort.
theorem mem_pyInsertDesc {le : α → α → Bool} {x y : α} {l : List α} :
    y ∈ pyInsertDesc le x l ↔ y = x ∨ y ∈ l := by
  induction l with
  | nil => simp [pyInsertDesc]
  | cons a as ih =>
    rw [pyInsertDesc]
    split
    · simp
    · simp only [List.mem_cons, ih]
      tauto

theorem mem_pySortDesc {le : α → α → Bool} {y : α} {l : List α} :
    y ∈ pySortDesc le l ↔ y ∈ l := by
  induction l with
  | nil => simp [pySortDesc]
  | cons a as ih =>
    show y ∈ pyInsertDesc le a (pySortDesc le as) ↔ _
    rw [mem_pyInsertDesc, ih]
    simp

-- Rounding to the 1/1000 grid never drops below a threshold that lies on
-- the grid.
theorem pyRound3_grid_ge {n : ℤ} {q : ℚ} (h : (n : ℚ)/1000 ≤ q) :
    (n : ℚ)/1000 ≤ pyRound3 q := by
  have h1000 : (0:ℚ) < 1000 := by norm_num
  have hq : (n:ℚ) ≤ q * 1000 := by rwa [div_le_iff h1000] at h
  have hnf : n ≤ ratFloor (q * 1000) := by
    have hfl : ratFloor (q * 1000) = ⌊q * 1000⌋ := Rat.floor_def.symm
    rw [hfl]
    exact Int.le_floor.mpr hq
  unfold pyRound3
  rw [div_le_div_iff_of_pos_right h1000]
  split_ifs
  · exact_mod_cast hnf
  · exact_mod_cast hnf.trans (by omega)
  · exact_mod_cast hnf
  · exact_mod_cast hnf.trans (by omega)

/-- **C1 (amended)**: every result returned by `search_topics` carries
`relevance_score = round(rel, 3)` for some converted relevance
`rel = 1 - distance` that is at or above the configured threshold; a
result whose converted relevance is below the floor never appears, and
the empty list is returned when nothing reaches the floor.  When the
threshold is an integer multiple of 0.001 (as the default 0.7 is), the
rounded `relevance_score` itself is at or above the threshold; an
off-grid threshold can be undercut by the rounding by less than 0.0005
(see the counterexample). -/
theorem search_relevance_floor (threshold : ℚ) (llm : LlmOracle)
    (store : TenantStore) (channelId : Option PyStr) (query : PyStr)
    (maxResults : Nat) :
    (∀ r ∈ search_topics threshold llm store channelId query maxResults,
      ∃ rel : ℚ, threshold ≤ rel ∧ r.relevance_score = pyRound3 rel) ∧
    (∀ l, store.respond query (maxResults * 2) = .ok l →
      (∀ ds ∈ l, (1 : ℚ) - (ds : Doc × ℚ).2 < threshold) →
      search_topics threshold llm store channelId query maxResults = []) ∧
    (∀ n : ℤ, threshold = (n : ℚ) / 1000 →
      ∀ r ∈ search_topics threshold llm store channelId query maxResults,
        threshold ≤ r.relevance_score) := by
  have hmain : ∀ r ∈ search_topics threshold llm store channelId query maxResults,
      ∃ rel : ℚ, threshold ≤ rel ∧ r.relevance_score = pyRound3 rel := by
    intro r hr
    rw [search_topics] at hr
    split at hr
    · exact absurd hr (List.not_mem_nil r)
    · split at hr
      · exact absurd hr (List.not_mem_nil r)
      · split at hr
        · exact absurd hr (List.not_mem_nil r)
        · rcases List.mem_map.mp hr with ⟨dr, hdr, rfl⟩
          have hdr2 : dr ∈ _ := List.mem_of_mem_take hdr
          rcases List.mem_filterMap.mp (mem_pySortDesc.mp hdr2) with ⟨ds, _, hf⟩
          split at hf
          · rename_i hth
            cases hf
            exact ⟨1 - ds.2, hth, rfl⟩
          · exact absurd hf (by simp)
  refine ⟨hmain, ?_, ?_⟩
  · intro l hl hall
    rw [search_topics]
    split
    · rfl
    · rw [hl]
      dsimp only
      have hnil : relevant_docs threshold l = [] := by
        rw [relevant_docs, List.filterMap_eq_nil_iff]
        intro ds hds
        rw [if_neg (not_le.mpr (hall ds hds))]
      rw [hnil]
      rfl
  · intro n hn r hr
    rcases hmain r hr with ⟨rel, hrel, hscore⟩
    rw [hscore, hn]
    exact pyRound3_grid_ge (hn ▸ hrel)

unseal Rat.ofScientific Rat.sub Rat.add Rat.mul Rat.inv in
set_option maxRecDepth 4000 in
/-- **C1 counterexample**: with the configured threshold 0.7002 and a
populated store answering with distance 0.2997 (converted relevance
0.7003 ≥ 0.7002, so the result is kept), `search_topics` returns a result
whose reported `relevance_score` is `round(0.7003, 3) = 0.7 < 0.7002`:
"every SearchResult … has relevance_score ≥ the configured similarity
threshold" is false as stated. -/
theorem search_relevance_floor_counterexample :
    (search_topics (0.7002 : ℚ) llmDown storeC1 (some (pystr "ch")) (pystr "q") 5).map
        (fun r => r.relevance_score) = [(0.7 : ℚ)] ∧
    (0.7 : ℚ) < (0.7002 : ℚ) := by
  decide

unseal Rat.ofScientific Rat.sub Rat.add Rat.mul Rat.inv in
set_option maxRecDepth 4000 in
/-- Witness for C1's amended statement at the default threshold 0.7
(which is on the 0.001 grid). -/
theorem search_relevance_floor_witness :
    (∃ rel : ℚ, (0.7 : ℚ) ≤ rel ∧
      ((search_topics (0.7 : ℚ) llmDown storeC1 (some (pystr "ch")) (pystr "q") 5).headD
        dumResult).relevance_score = pyRound3 rel) ∧
    (0.7 : ℚ) ≤ ((search_topics (0.7 : ℚ) llmDown storeC1 (some (pystr "ch"))
      (pystr "q") 5).headD dumResult).relevance_score :=
  ⟨(search_relevance_floor (0.7 : ℚ) llmDown storeC1 (some (pystr "ch")) (pystr "q") 5).1
      _ (by decide),
    (search_relevance_floor (0.7 : ℚ) llmDown storeC1 (some (pystr "ch")) (pystr "q") 5).2.2
      700 (by norm_num) _ (by decide)⟩

/-- **C10**: every result's `content_preview` is the chunk's full
`page_content` when that is at most 200 characters and otherwise exactly
its first 200 characters followed by `"..."`; hence it never exceeds 203
characters. -/
theorem content_preview_spec (threshold : ℚ) (llm : LlmOracle)
    (store : TenantStore) (channelId : Option PyStr) (query : PyStr)
    (maxResults : Nat) :
    ∀ r ∈ search_topics threshold llm store channelId query maxResults,
      (∃ l, store.respond query (maxResults * 2) = .ok l ∧
        ∃ ds ∈ l, r.content_preview =
          (if (ds : Doc × ℚ).1.page_content.length ≤ 200 then ds.1.page_content
           else ds.1.page_content.take 200 ++ pystr "...")) ∧
      r.content_preview.length ≤ 203 := by
  intro r hr
  rw [search_topics] at hr
  split at hr
  · exact absurd hr (List.not_mem_nil r)
  · split at hr
    · exact absurd hr (List.not_mem_nil r)
    · rename_i l hl
      split at hr
      · exact absurd hr (List.not_mem_nil r)
      · rcases List.mem_map.mp hr with ⟨dr, hdr, rfl⟩
        have hdr2 : dr ∈ _ := List.mem_of_mem_take hdr
        rcases List.mem_filterMap.mp (mem_pySortDesc.mp hdr2) with ⟨ds, hds, hf⟩
        split at hf
        · cases hf
          constructor
          · refine ⟨l, hl, ds, hds, ?_⟩
            show (if ds.1.page_content.length > 200 then
                ds.1.page_content.take 200 ++ pystr "..." else ds.1.page_content) = _
            by_cases hlen : ds.1.page_content.length ≤ 200
            · rw [if_neg (by omega), if_pos hlen]
            · rw [if_pos (by omega), if_neg hlen]
          · show (if ds.1.page_content.length > 200 then
                ds.1.page_content.take 200 ++ pystr "..." else ds.1.page_content).length ≤ 203
            have h3 : (pystr "...").length = 3 := rfl
            split
            · rw [List.length_append, List.length_take, h3]
              omega
            · omega
        · cases hf

unseal Rat.ofScientific Rat.sub Rat.add Rat.mul Rat.inv in
set_option maxRecDepth 4000 in
/-- Witness for C10 at a concrete store and query. -/
theorem content_preview_spec_witness :
    ((∃ l, storeC1.respond (pystr "q") (5 * 2) = .ok l ∧
        ∃ ds ∈ l, ((search_topics (0.7 : ℚ) llmDown storeC1 (some (pystr "ch"))
            (pystr "q") 5).headD dumResult).content_preview =
          (if (ds : Doc × ℚ).1.page_content.length ≤ 200 then ds.1.page_content
           else ds.1.page_content.take 200 ++ pystr "...")) ∧
      ((search_topics (0.7 : ℚ) llmDown storeC1 (some (pystr "ch"))
        (pystr "q") 5).headD dumResult).content_preview.length ≤ 203) :=
  content_preview_spec (0.7 : ℚ) llmDown storeC1 (some (pystr "ch")) (pystr "q") 5
    _ (by decide)

unseal Rat.ofScientific Rat.sub Rat.add Rat.mul Rat.inv in
set_option maxRecDepth 8000 in
/-- **C6 (amended)**: `search_unified` is the concatenation of each
enabled tenant's contribution (each tenant queried independently with cap
`2k`), re-sorted in non-increasing `relevance_score` order by a *stable*
sort and truncated to `k`.  In the spec's scenario (A: five results at
relevance 0.9, B: one at 0.95, k = 3) both tenant iteration orders return
B's result first followed by A's top two; but because the sort is stable,
the final ranking is independent of the tenant iteration order only when
relevance scores do not tie across tenants (see the counterexample). -/
theorem search_unified_amended (threshold : ℚ) (llm : LlmOracle)
    (channels : List Channel) (query : PyStr) (maxResults : Nat)
    (h : channels ≠ []) :
    search_unified threshold llm channels none query maxResults =
      (pySortDesc (fun a b => a.relevance_score ≤ b.relevance_score)
        ((channels.map (tenant_results threshold llm query maxResults none)).flatten)).take
        maxResults ∧
    (search_unified (0.7 : ℚ) llmDown [chanA, chanB] none (pystr "q") 3).map
        (fun r => (r.title, r.relevance_score, r.channel_id)) =
      [(pystr "B1", (0.95 : ℚ), some (pystr "B")),
       (pystr "A1", (0.9 : ℚ), some (pystr "A")),
       (pystr "A2", (0.9 : ℚ), some (pystr "A"))] ∧
    (search_unified (0.7 : ℚ) llmDown [chanB, chanA] none (pystr "q") 3).map
        (fun r => (r.title, r.relevance_score, r.channel_id)) =
      [(pystr "B1", (0.95 : ℚ), some (pystr "B")),
       (pystr "A1", (0.9 : ℚ), some (pystr "A")),
       (pystr "A2", (0.9 : ℚ), some (pystr "A"))] := by
  refine ⟨?_, by decide, by decide⟩
  rw [search_unified, if_neg (by simp [h])]

unseal Rat.ofScientific Rat.sub Rat.add Rat.mul Rat.inv in
set_option maxRecDepth 8000 in
/-- **C6 counterexample**: with a cross-tenant tie at relevance 0.9
(tenant A: five tied chunks, tenant B: one tied chunk, k = 3), the two
tenant iteration orders return different rankings — the stable re-sort
keeps tied results in iteration order, so "the final ranking is
independent of the order in which tenants are iterated" is false as
stated. -/
theorem search_unified_counterexample :
    (search_unified (0.7 : ℚ) llmDown [chanA, chanBtie] none (pystr "q") 3).map
        (fun r => r.title) = [pystr "A1", pystr "A2", pystr "A3"] ∧
    (search_unified (0.7 : ℚ) llmDown [chanBtie, chanA] none (pystr "q") 3).map
        (fun r => r.title) = [pystr "B1", pystr "A1", pystr "A2"] := by
  decide

unseal Rat.ofScientific Rat.sub Rat.add Rat.mul Rat.inv in
set_option maxRecDepth 8000 in
/-- Witness for C6's amended statement at the spec's scenario. -/
theorem search_unified_amended_witness :
    (search_unified (0.7 : ℚ) llmDown [chanA, chanB] none (pystr "q") 3 =
      (pySortDesc (fun a b => a.relevance_score ≤ b.relevance_score)
        (([chanA, chanB].map (tenant_results (0.7 : ℚ) llmDown (pystr "q") 3 none)).flatten)).take
        3 ∧
    (search_unified (0.7 : ℚ) llmDown [chanA, chanB] none (pystr "q") 3).map
        (fun r => (r.title, r.relevance_score, r.channel_id)) =
      [(pystr "B1", (0.95 : ℚ), some (pystr "B")),
       (pystr "A1", (0.9 : ℚ), some (pystr "A")),
       (pystr "A2", (0.9 : ℚ), some (pystr "A"))] ∧
    (search_unified (0.7 : ℚ) llmDown [chanB, chanA] none (pystr "q") 3).map
        (fun r => (r.title, r.relevance_score, r.channel_id)) =
      [(pystr "B1", (0.95 : ℚ), some (pystr "B")),
       (pystr "A1", (0.9 : ℚ), some (pystr "A")),
       (pystr "A2", (0.9 : ℚ), some (pystr "A"))]) :=
  search_unified_amended (0.7 : ℚ) llmDown [chanA, chanB] (pystr "q") 3 (by simp)

/-- **C7**: a query-time failure of one tenant store — the store directory
missing (`present = false`) or the similarity query raising — yields an
empty result list for that store, and unified search over the remaining
tenants is unchanged: the failure never suppresses the other tenants'
results and no exception propagates (both functions are total and return
lists). -/
theorem tenant_failure_isolated (threshold : ℚ) (llm : LlmOracle)
    (query : PyStr) (maxResults : Nat) (pre post : List Channel) (B : Channel)
    (channelFilter : Option PyStr)
    (hfail : B.store.present = false ∨
      ∃ e, B.store.respond query (maxResults * 2 * 2) = .error e) :
    search_topics threshold llm B.store (some B.id) query (maxResults * 2) = [] ∧
    search_unified threshold llm (pre ++ B :: post) channelFilter query maxResults =
      search_unified threshold llm (pre ++ post) channelFilter query maxResults := by
  have hempty : search_topics threshold llm B.store (some B.id) query (maxResults * 2) = [] := by
    cases hpres : B.store.present with
    | false => simp [search_topics, hpres]
    | true =>
      rcases hfail with hp | ⟨e, he⟩
      · rw [hpres] at hp
        cases hp
      · simp [search_topics, hpres, he]
  refine ⟨hempty, ?_⟩
  have hcontrib : tenant_results threshold llm query maxResults channelFilter B = [] := by
    rcases channelFilter with _ | f <;>
      rw [tenant_results.eq_def] <;> dsimp only
    · simp [hempty]
    · split
      · rfl
      · simp [hempty]
  rw [search_unified, search_unified, if_neg (by simp)]
  by_cases hpp : pre ++ post = []
  · rw [if_pos (by simp [hpp])]
    rcases List.append_eq_nil.mp hpp with ⟨rfl, rfl⟩
    simp [hcontrib, pySortDesc]
  · rw [if_neg (by simp [hpp])]
    rw [List.map_append, List.map_append, List.map_cons, List.flatten_append,
      List.flatten_append, List.flatten_cons, hcontrib, List.nil_append]

/-- Witness for C7: the failing tenant contributes nothing and unified
search over `[chanA, chanBad]` equals unified search over `[chanA]`. -/
theorem tenant_failure_isolated_witness :
    search_topics (0.7 : ℚ) llmDown chanBad.store (some chanBad.id) (pystr "q") (3 * 2) = [] ∧
    search_unified (0.7 : ℚ) llmDown ([chanA] ++ chanBad :: []) none (pystr "q") 3 =
      search_unified (0.7 : ℚ) llmDown ([chanA] ++ []) none (pystr "q") 3 :=
  tenant_failure_isolated (0.7 : ℚ) llmDown (pystr "q") 3 [chanA] [] chanBad none
    (Or.inl rfl)

-- Unfolding lemmas for the retry loop.
theorem attemptsLoop_success {oracle : List Doc → AddOutcome} {split}
    {store docs : List Doc} (h : oracle docs = .success) (al : Nat) :
    attemptsLoop oracle split (al + 1) store docs = .ok (store ++ docs) := by
  simp [attemptsLoop, h]

theorem attemptsLoop_split {oracle : List Doc → AddOutcome} {split}
    {store docs : List Doc} (h : oracle docs = .tokenLimit) {al : Nat}
    (hal : 1 ≤ al) (hmid : 0 < docs.length / 2) :
    attemptsLoop oracle split (al + 1) store docs = split store docs := by
  simp [attemptsLoop, h, hal, hmid]

-- A single persistently overflowing document exhausts the attempts and
-- raises.
theorem attemptsLoop_stuck {oracle : List Doc → AddOutcome} {split}
    {store docs : List Doc} (hmid : docs.length / 2 = 0)
    (hfail : oracle docs = .tokenLimit) :
    ∀ al, attemptsLoop oracle split (al + 1) store docs =
      .error (pystr "max_tokens_per_request", store) := by
  intro al
  induction al with
  | zero => simp [attemptsLoop, hfail]
  | succ a ih =>
    rw [show a + 1 + 1 = (a + 1) + 1 from rfl, attemptsLoop]
    simp only [hfail, hmid]
    rw [if_pos (by omega), if_neg (by omega)]
    exact ih

unseal Rat.ofScientific Rat.sub Rat.add Rat.mul Rat.inv in
set_option maxRecDepth 8000 in
/-- **C8 (amended)**: on the embedding service's size-limit error the
batcher halves the failing batch and retries each half independently,
with recursion bounded by the shrinking retry budget (when both halves
fit, all documents are added); but a batch already split down to a single
document that still overflows is retried and then **raises** out of
`_add_documents_with_retry` once the attempt budget is exhausted — it is
not reported as a failed residual.  The enclosing `build_vectorstore`
catches the exception and returns a failure report instead of
propagating it, abandoning the remaining batches. -/
theorem add_retry_amended (oracle : List Doc → AddOutcome)
    (store docs : List Doc) (mr : Nat) :
    (oracle docs = .tokenLimit → 2 ≤ mr → 2 ≤ docs.length →
      oracle (docs.take (docs.length / 2)) = .success →
      oracle (docs.drop (docs.length / 2)) = .success →
      add_documents_with_retry oracle store docs mr = .ok (store ++ docs)) ∧
    (docs.length = 1 → oracle docs = .tokenLimit → 1 ≤ mr →
      add_documents_with_retry oracle store docs mr =
        .error (pystr "max_tokens_per_request", store)) ∧
    (build_vectorstore (fun _ => AddOutcome.tokenLimit) 1000 200 true none [videoW]
        ⟨none, []⟩).1 =
      ⟨false, some (pystr "max_tokens_per_request"), none⟩ := by
  refine ⟨?_, ?_, by decide⟩
  · intro hfail hmr hlen hok1 hok2
    obtain ⟨m, rfl⟩ : ∃ m, mr = m + 2 := ⟨mr - 2, by omega⟩
    rw [add_documents_with_retry, show m + 2 = (m + 1) + 1 from rfl]
    simp only [addRetryLoop]
    rw [attemptsLoop_split hfail (by omega) (by omega)]
    rw [attemptsLoop_success hok1]
    dsimp only
    rw [attemptsLoop_success hok2, List.append_assoc, List.take_append_drop]
  · intro hlen hfail hmr
    obtain ⟨m, rfl⟩ : ∃ m, mr = m + 1 := ⟨mr - 1, by omega⟩
    rw [add_documents_with_retry]
    simp only [addRetryLoop]
    exact attemptsLoop_stuck (by omega) hfail m

/-- Witness for C8's amended statement: a two-document batch that
overflows is split and both halves are added. -/
theorem add_retry_amended_witness :
    add_documents_with_retry oracle2 [] [docD1, docD2] 3 = .ok ([] ++ [docD1, docD2]) :=
  (add_retry_amended oracle2 [] [docD1, docD2] 3).1 (by decide) (by decide) (by decide)
    (by decide) (by decide)

/-- **C8 counterexample**: a single document whose embedding always hits
the size limit makes `_add_documents_with_retry` raise to its caller
(modelled as an `error` outcome) instead of completing with the document
reported as permanently failed: "the batcher completes without raising an
unguarded exception to its caller" is false of the batcher itself. -/
theorem add_retry_counterexample :
    add_documents_with_retry (fun _ => AddOutcome.tokenLimit) []
        [docP (pystr "c") (pystr "D")] 3 =
      .error (pystr "max_tokens_per_request", []) := by
  decide

-- Unfolding of the incremental entry path of `build_vectorstore`.
theorem build_vectorstore_incr_eq (oracle : List Doc → AddOutcome)
    (chunkSize chunkOverlap : ℤ) (cid : Option PyStr) (units : List VideoData)
    (st : IndexState) :
    build_vectorstore oracle chunkSize chunkOverlap true cid units st =
      if (filter_new_enhanced_files units st).isEmpty then (emptyIncrementalResult, st)
      else build_from oracle chunkSize chunkOverlap true cid
        (filter_new_enhanced_files units st) st := rfl

-- A `build_from` call either fails or succeeds with the manifest updated
-- to the merged processed-id set.
theorem build_from_cases (oracle : List Doc → AddOutcome)
    (chunkSize chunkOverlap : ℤ) (inc : Bool) (cid : Option PyStr)
    (files : List VideoData) (st : IndexState) :
    (build_from oracle chunkSize chunkOverlap inc cid files st).1.success = false ∨
    ((build_from oracle chunkSize chunkOverlap inc cid files st).1.success = true ∧
      (build_from oracle chunkSize chunkOverlap inc cid files st).2.buildInfo =
        some ⟨files.length, segment_total files,
          (documents_of chunkSize chunkOverlap files).length,
          (newVideoIds files).length, inc, cid,
          ((if inc then processedIdsOf st else []) ++ newVideoIds files).dedup⟩) := by
  rw [build_from]
  split
  · left; rfl
  · split
    · left; rfl
    · split
      · left; rfl
      · right; exact ⟨rfl, rfl⟩

-- After a successful incremental build, every unit is filtered out by the
-- updated manifest.
theorem filter_new_after_success (oracle : List Doc → AddOutcome)
    (chunkSize chunkOverlap : ℤ) (cid : Option PyStr) (units : List VideoData)
    (st : IndexState)
    (h : (build_vectorstore oracle chunkSize chunkOverlap true cid units st).1.success
      = true) :
    (filter_new_enhanced_files units
      (build_vectorstore oracle chunkSize chunkOverlap true cid units st).2).isEmpty
      = true := by
  by_cases h1 : (filter_new_enhanced_files units st).isEmpty = true
  · rw [build_vectorstore_incr_eq, if_pos h1]
    exact h1
  · rw [build_vectorstore_incr_eq, if_neg h1] at h ⊢
    rcases build_from_cases oracle chunkSize chunkOverlap true cid
        (filter_new_enhanced_files units st) st with hf | ⟨_, hbi⟩
    · rw [h] at hf
      cases hf
    · rw [List.isEmpty_iff, filter_new_enhanced_files, List.filter_eq_nil_iff]
      intro u hu
      rcases hvid : u.video_id with _ | vid
      · simp [keepNewFile, hvid]
      · by_cases hnl : vid = []
        · simp [keepNewFile, hvid, hnl]
        · have hmem : vid ∈ processedIdsOf
              (build_from oracle chunkSize chunkOverlap true cid
                (filter_new_enhanced_files units st) st).2 := by
            rw [processedIdsOf, hbi]
            rw [List.mem_dedup, List.mem_append]
            by_cases hk : keepNewFile (processedIdsOf st) u = true
            · right
              refine List.mem_filter.mpr ⟨?_, by simp [hnl]⟩
              exact List.mem_filterMap.mpr
                ⟨u, List.mem_filter.mpr ⟨hu, hk⟩, hvid⟩
            · left
              rw [keepNewFile, hvid] at hk
              simp [hnl] at hk
              exact hk
          have hcont : (processedIdsOf
              (build_from oracle chunkSize chunkOverlap true cid
                (filter_new_enhanced_files units st) st).2).contains vid = true :=
            List.elem_eq_true_of_mem hmem
          simp [keepNewFile, hvid, hcont]
          exact fun _ => hmem

/-- **C2**: running `build_vectorstore` a second time in incremental mode
with an unchanged set of input units, after a first call that succeeded,
is a no-op: the second call returns success with a report of zero
`total_videos`, `total_segments`, `total_chunks` and `new_videos_count`,
and neither the persistent store nor the `build_info` manifest changes. -/
theorem build_incremental_idempotent (oracle : List Doc → AddOutcome)
    (chunkSize chunkOverlap : ℤ) (cid : Option PyStr) (units : List VideoData)
    (st : IndexState)
    (h : (build_vectorstore oracle chunkSize chunkOverlap true cid units st).1.success
      = true) :
    build_vectorstore oracle chunkSize chunkOverlap true cid units
        (build_vectorstore oracle chunkSize chunkOverlap true cid units st).2 =
      (⟨true, none, some ⟨0, 0, 0, 0⟩⟩,
        (build_vectorstore oracle chunkSize chunkOverlap true cid units st).2) := by
  rw [build_vectorstore_incr_eq oracle chunkSize chunkOverlap cid units
    (build_vectorstore oracle chunkSize chunkOverlap true cid units st).2]
  rw [if_pos (filter_new_after_success oracle chunkSize chunkOverlap cid units st h)]
  rfl

unseal Rat.ofScientific Rat.sub Rat.add Rat.mul Rat.inv in
set_option maxRecDepth 8000 in
/-- Witness for C2: a concrete first build over one unit succeeds, and the
theorem applies to its post-state. -/
theorem build_incremental_idempotent_witness :
    (build_vectorstore (fun _ => AddOutcome.success) 1000 200 true none [videoW]
      ⟨none, []⟩).1.success = true ∧
    build_vectorstore (fun _ => AddOutcome.success) 1000 200 true none [videoW]
        (build_vectorstore (fun _ => AddOutcome.success) 1000 200 true none [videoW]
          ⟨none, []⟩).2 =
      (⟨true, none, some ⟨0, 0, 0, 0⟩⟩,
        (build_vectorstore (fun _ => AddOutcome.success) 1000 200 true none [videoW]
          ⟨none, []⟩).2) :=
  ⟨by decide,
    build_incremental_idempotent (fun _ => AddOutcome.success) 1000 200 none [videoW]
      ⟨none, []⟩ (by decide)⟩

/-- Witness for C5 at the spec's example: `start_seconds = 125.7` with
`source_url = "https://x/watch?v=abc"` yields
`"https://x/watch?v=abc&t=125s"`. -/
theorem create_timestamp_url_spec_witness :
    (0 : ℚ) < 1257/10 ∧
    create_timestamp_url (pystr "https://x/watch?v=abc") (some (1257/10)) =
      pystr "https://x/watch?v=abc&t=125s" := by
  refine ⟨by norm_num, ?_⟩
  have h := (create_timestamp_url_spec (pystr "https://x/watch?v=abc") (1257/10)).2.2
    (by norm_num)
  have hf : ⌊(1257/10 : ℚ)⌋ = 125 := by norm_num
  rw [h, hf]
  decide
